import Mathlib

/-!
# Verification of the `datepp` single-header date/time library

This file gives a shallow embedding of `src/datepp.hpp` (the `beliumgl`
namespace: the `DateTime` epoch-to-civil conversion, the calendar math
helpers, the `DateTimeFormat` format-string parser and the renderer), and
proves properties of that embedding.

Modelling conventions:
* C++ `long long` / `short` / unsigned char arithmetic is modelled with
  `Int`/`Nat`; all values handled by the claims stay far inside the machine
  ranges, so no wrap-around is modelled.
* C++ `/` and `%` on integers truncate toward zero; they are modelled with
  `Int.tdiv` and `Int.tmod`.  `Int./` (`Int.ediv`) appears only in
  specification-side formulas.
* Functions that can `throw` in the C++ source are modelled with `Option`
  or `Except` results.
* The `timezoneOffset` member is a C++ `double`; the model restricts it to
  whole hours (an `Int`), which covers every input used by the claims.
  `std::to_string` applied to such a whole-valued double prints six fixed
  decimals; `doubleLit` models exactly that.
-/

namespace Datepp

/-- The error kinds of the C++ exceptions thrown by the library
(`std::runtime_error` for an unusable format string, `std::invalid_argument`
for calendar-math bounds, `std::out_of_range` from name-table lookups). -/
inductive DateErr where
  | invalidFormat
  | invalidArgument
  | outOfRange
deriving DecidableEq

/-- The civil calendar fields stored in a `DateTime`
(`years/months/days/hours/minutes/seconds/dotw` members of the C++ class).
`months` and `days` are 0-based, as in the source; `dotw` is the
`DOTW` enumerator value (Sunday = 0 .. Saturday = 6). -/
structure CalendarFields where
  years : Int
  months : Nat
  days : Int
  hours : Int
  minutes : Int
  seconds : Int
  dotw : Nat
deriving DecidableEq

/-- `DateTime::isLeapYear`: `(year % 4 == 0) && ((year % 100 != 0) || (year % 400 == 0))`
with C++ truncated `%`. -/
def isLeapYear (year : Int) : Bool :=
  year.tmod 4 == 0 && (year.tmod 100 != 0 || year.tmod 400 == 0)

/-- The fixed month-length table `{31,28,31,30,31,30,31,31,30,31,30,31}`. -/
def monthTable : List Nat := [31, 28, 31, 30, 31, 30, 31, 31, 30, 31, 30, 31]

/-- The value `DateTime::daysInMonth` returns once its bounds check has
passed: 29 for February of a leap year, the fixed table entry otherwise. -/
def monthLen (year : Int) (month : Nat) : Nat :=
  if month == 1 && isLeapYear year then 29 else monthTable.getD month 0

/-- `DateTime::daysInMonth`: throws `std::invalid_argument` (modelled as
`none`) unless `month` is in `0..11`. -/
def daysInMonth (year : Int) (month : Nat) : Option Nat :=
  if 11 < month then none else some (monthLen year month)

/-- Length of a year, as recomputed inside `DateTime::parseUnix`:
`isLeapYear(year) ? 366 : 365`. -/
def daysInYear (year : Int) : Int :=
  if isLeapYear year then 366 else 365

/-- `DateTime::dotwByDate`: Zeller-style congruence with the source's C++
truncated `/` and `%`; month is 1-based, day 1-based.  The two
`std::invalid_argument` throws are modelled as `none`. -/
def dotwByDate (year m d : Int) : Option Nat :=
  if m < 1 ∨ 12 < m then none
  else if d < 1 ∨ (monthLen year (m - 1).toNat : Int) < d then none
  else
    let m2 := if m < 3 then m + 12 else m
    let y2 := if m < 3 then year - 1 else year
    let K := y2.tmod 100
    let J := y2.tdiv 100
    let h := (d + (13 * (m2 + 1)).tdiv 5 + K + K.tdiv 4 + J.tdiv 4 + 5 * J).tmod 7
    some ((h - 1 + 7).tmod 7).toNat

/-- The day-count/remainder split at the top of `DateTime::parseUnix`:
truncated division and remainder by 86400, then the negative remainder is
corrected by adding a day and decrementing the day count. -/
def splitDay (adjusted : Int) : Int × Int :=
  if adjusted.tmod 86400 < 0 then
    (adjusted.tdiv 86400 - 1, adjusted.tmod 86400 + 86400)
  else
    (adjusted.tdiv 86400, adjusted.tmod 86400)

/-- The forward year walk of `DateTime::parseUnix`: starting from 1970,
while the day count is at least the current year's length, subtract that
length and step to the next year. -/
def yearWalkF (year d : Int) : Int × Int :=
  if h : daysInYear year ≤ d then yearWalkF (year + 1) (d - daysInYear year)
  else (year, d)
termination_by d.toNat
decreasing_by
  have h365 : (365 : Int) ≤ daysInYear year := by
    unfold daysInYear; split <;> omega
  omega

/-- The backward year walk of `DateTime::parseUnix`: while the day count is
negative, add the previous year's length and step to the previous year. -/
def yearWalkB (year d : Int) : Int × Int :=
  if h : d < 0 then yearWalkB (year - 1) (d + daysInYear (year - 1))
  else (year, d)
termination_by (-d).toNat
decreasing_by
  have h365 : (365 : Int) ≤ daysInYear (year - 1) := by
    unfold daysInYear; split <;> omega
  omega

/-- The branch on the sign of the day count in `DateTime::parseUnix`
choosing the forward or the backward year walk, both starting at 1970. -/
def yearSplit (d : Int) : Int × Int :=
  if 0 ≤ d then yearWalkF 1970 d else yearWalkB 1970 d

/-- The month walk of `DateTime::parseUnix`: starting from month 0, while
the day count is at least `daysInMonth(year, month)`, subtract it and step
to the next month.  A step past month 11 would make `daysInMonth` throw
`std::invalid_argument`; that is the `none` result. -/
def monthWalk (year : Int) (month : Nat) (d : Int) : Option (Nat × Int) :=
  if h : 11 < month then none
  else if h2 : (monthLen year month : Int) ≤ d then
    monthWalk year (month + 1) (d - monthLen year month)
  else some (month, d)
termination_by 12 - month

/-- The hour/minute/second derivation at the end of `DateTime::parseUnix`:
`remainder / 3600`, then `/ 60` and `% 60` of the rest. -/
def hmsOf (r : Int) : Int × Int × Int :=
  (r.tdiv 3600, (r.tmod 3600).tdiv 60, (r.tmod 3600).tmod 60)

/-- `DateTime::parseUnix` on the epoch integer `u` and the whole-second
timezone shift `tzs` (the source computes `tzs` as
`static_cast<long long>(timezoneOffset * 3600)` from the double offset). -/
def parseUnix (u tzs : Int) : Option CalendarFields :=
  match splitDay (u + tzs) with
  | (dayCount, rem) =>
    match yearSplit dayCount with
    | (year, dRest) =>
      match monthWalk year 0 dRest with
      | none => none
      | some (month, day) =>
        match dotwByDate year ((month : Int) + 1) (day + 1) with
        | none => none
        | some w =>
          some ⟨year, month, day, (hmsOf rem).1, (hmsOf rem).2.1, (hmsOf rem).2.2, w⟩

/-- The `DateTime` facade: the parsed epoch integer (from the stored epoch
text), the UTC offset (restricted to whole hours) and the frozen calendar
fields. -/
structure DateTime where
  epoch : Int
  tzOffset : Int
  fields : CalendarFields
deriving DecidableEq

/-- The `DateTime` constructor: parse the epoch text (here already an
integer), run `parseUnix` with the offset converted to seconds, freeze the
fields.  `none` models the constructor throwing. -/
def mkDateTime (e tzHours : Int) : Option DateTime :=
  (parseUnix e (tzHours * 3600)).map fun f => ⟨e, tzHours, f⟩

/-- `DateTime::operator/`: re-parses both operands' epoch text and divides
with C++ integer division, with **no zero check**; C++ integer division by
zero is undefined behavior (the program typically dies with SIGFPE), which
the model records as `none`.  A nonzero divisor yields a new `DateTime`
built from the truncated quotient with a `0.0` offset. -/
def dtDiv (x y : DateTime) : Option DateTime :=
  if y.epoch = 0 then none
  else mkDateTime (x.epoch.tdiv y.epoch) 0

/-! ## The format-string parser (`DateTimeFormat`) -/

/-- The parsed rendering configuration (the fields of `DateTimeFormat`).
`hours12` is the source's `_12Hours` flag; `order` is the deduplicated
order string. -/
structure DateTimeFormat where
  delimiter : Char
  showDotw : Bool
  showTime : Bool
  showUTCoffset : Bool
  fillZeros : Bool
  alphabeticalMonth : Bool
  hours12 : Bool
  fullNames : Bool
  order : List Char
deriving DecidableEq

/-- The scan state of the `DateTimeFormat(const std::string&)` constructor
loop: the flags plus the still-undeduplicated order string. -/
structure ScanState where
  delimiter : Char
  showDotw : Bool
  showTime : Bool
  showUTCoffset : Bool
  fillZeros : Bool
  alphabeticalMonth : Bool
  hours12 : Bool
  fullNames : Bool
  order : List Char
deriving DecidableEq

/-- The constructor's `isOrderToken` lambda: `d`, `m`, `y` or `a`. -/
def isOrderToken (c : Char) : Bool :=
  c == 'd' || c == 'm' || c == 'y' || c == 'a'

/-- One iteration of the constructor's scan loop at character `c`, where
`next` is the following character if any (`newFormat[i + 1]`).  Field by
field this is the source's branch cascade: `w` sets `showDotw` (and
`fullNames` when doubled); an order token is appended to the order string,
doubling sets `fillZeros`, and while fewer than three order tokens have
been collected the following character is captured as the delimiter;
`h`/`i`/`s` set `showTime` (doubling sets `fillZeros`); `_` sets the
12-hour flag; `o` sets the offset flag; anything else is ignored. -/
def scanStep (st : ScanState) (c : Char) (next : Option Char) : ScanState :=
  if c == 'w' then
    { st with showDotw := true,
              fullNames := st.fullNames || next == some 'w' }
  else if isOrderToken c then
    { st with order := st.order ++ [c],
              fillZeros := st.fillZeros || next == some c,
              delimiter :=
                match next with
                | some n => if st.order.length + 1 < 3 then n else st.delimiter
                | none => st.delimiter,
              alphabeticalMonth := st.alphabeticalMonth || c == 'a' }
  else if c == 'h' || c == 'i' || c == 's' then
    { st with showTime := true,
              fillZeros := st.fillZeros || next == some c }
  else if c == '_' then
    { st with hours12 := true }
  else if c == 'o' then
    { st with showUTCoffset := true }
  else st

/-- The constructor's scan loop over the lowercased, space-stripped
format characters. -/
def scanAux : ScanState → List Char → ScanState
  | st, [] => st
  | st, c :: rest => scanAux (scanStep st c rest.head?) rest

/-- The scan state before the loop: the in-class initializers
(delimiter `/`, all flags `false`, empty working order string). -/
def initState : ScanState :=
  ⟨'/', false, false, false, false, false, false, false, []⟩

/-- Worker of `DateTimeFormat::removeDuplicates`: keep the first occurrence
of each character, tracking the set of characters already seen. -/
def dedupAux : List Char → List Char → List Char
  | _, [] => []
  | seen, c :: rest =>
      if c ∈ seen then dedupAux seen rest
      else c :: dedupAux (c :: seen) rest

/-- `DateTimeFormat::removeDuplicates`: duplicate removal preserving
first-occurrence order. -/
def removeDuplicates (l : List Char) : List Char :=
  dedupAux [] l

/-- The constructor's preprocessing: `toLowercase` then `removeAll ' '`
(ASCII lowercasing, as `std::tolower` in the default locale). -/
def preprocess (s : String) : List Char :=
  (s.data.map Char.toLower).filter (fun c => c ≠ ' ')

/-- `DateTimeFormat::DateTimeFormat(const std::string&)`: scan the
preprocessed characters, deduplicate the collected order string, and throw
(`std::runtime_error`, modelled as `DateErr.invalidFormat`) unless exactly
three distinct order tokens remain. -/
def parseFormat (s : String) : Except DateErr DateTimeFormat :=
  if (removeDuplicates (scanAux initState (preprocess s)).order).length ≠ 3 then
    .error .invalidFormat
  else
    .ok ⟨(scanAux initState (preprocess s)).delimiter,
         (scanAux initState (preprocess s)).showDotw,
         (scanAux initState (preprocess s)).showTime,
         (scanAux initState (preprocess s)).showUTCoffset,
         (scanAux initState (preprocess s)).fillZeros,
         (scanAux initState (preprocess s)).alphabeticalMonth,
         (scanAux initState (preprocess s)).hours12,
         (scanAux initState (preprocess s)).fullNames,
         removeDuplicates (scanAux initState (preprocess s)).order⟩

/-! ## The renderer (`DateTime::toString`) -/

/-- The `dotwStrMap` day-name table, indexed by the `DOTW` value. -/
def dotwNames : List String :=
  ["Sunday", "Monday", "Tuesday", "Wednesday", "Thursday", "Friday", "Saturday"]

/-- The `monthsStrMap` month-name table, indexed by the 0-based month. -/
def monthNames : List String :=
  ["January", "February", "March", "April", "May", "June", "July",
   "August", "September", "October", "November", "December"]

/-- `DateTime::padZeros` instantiated at an integer type:
prepend `"0"` when `0 ≤ n < 10`, then `std::to_string`. -/
def padZerosI (n : Int) : String :=
  (if n < 10 ∧ 0 ≤ n then "0" else "") ++ toString n

/-- `std::to_string` applied to a `double` holding the whole number `o`:
`%f` formatting prints six fixed decimals. -/
def doubleLit (o : Int) : String :=
  toString o ++ ".000000"

/-- `DateTime::padZeros` instantiated at `double` (the timezone offset):
prepend `"0"` when `0 ≤ o < 10`, then `std::to_string` of the double. -/
def padZerosDouble (o : Int) : String :=
  (if o < 10 ∧ 0 ≤ o then "0" else "") ++ doubleLit o

/-- The body of the `switch` in the order loop of `DateTime::toString`:
the text emitted for one order character (day and month printed 1-based,
the alphabetical month through the name table — whose failed lookup throws
`std::out_of_range`, modelled as `none` — the year as-is, anything else
nothing). -/
def orderText (f : CalendarFields) (fmt : DateTimeFormat) (c : Char) : Option String :=
  if c = 'd' then
    some (if fmt.fillZeros then padZerosI (f.days + 1) else toString (f.days + 1))
  else if c = 'm' then
    some (if fmt.fillZeros then padZerosI ((f.months : Int) + 1) else toString ((f.months : Int) + 1))
  else if c = 'a' then
    (monthNames.get? f.months).map fun nm =>
      if fmt.fullNames then nm else nm.take 3
  else if c = 'y' then
    some (toString f.years)
  else some ""

/-- The day-of-week prefix of `DateTime::toString` (name table lookup,
full or first three characters, then `", "`); empty when `showDotw` is
off. -/
def renderDotwPart (f : CalendarFields) (fmt : DateTimeFormat) : Option String :=
  if fmt.showDotw then
    (dotwNames.get? f.dotw).map fun nm =>
      (if fmt.fullNames then nm else nm.take 3) ++ ", "
  else some ""

/-- The order loop of `DateTime::toString`: for each order character append
its text and then the delimiter. -/
def renderOrderPart (f : CalendarFields) (fmt : DateTimeFormat) : Option String :=
  fmt.order.foldlM (fun acc c => (orderText f fmt c).map fun t =>
    acc ++ t ++ fmt.delimiter.toString) ""

/-- `result[result.length() - 1] = ' '`: replace the final character (the
trailing delimiter) with a space.  On an empty string the C++ write is
out of bounds (undefined); the model leaves the empty string unchanged,
and no claim exercises that case. -/
def setLastToSpace (s : String) : String :=
  if s.isEmpty then s else s.dropRight 1 ++ " "

/-- The time section of `DateTime::toString`: 12- or 24-hour value, minute
and second (each zero-padded per `fillZeros`), and the AM/PM tag in 12-hour
mode. -/
def renderTimePart (f : CalendarFields) (fmt : DateTimeFormat) : String :=
  if fmt.showTime then
    (if fmt.hours12 then
       (if fmt.fillZeros then
          padZerosI (if f.hours.tmod 12 = 0 then 12 else f.hours.tmod 12)
        else toString (if f.hours.tmod 12 = 0 then 12 else f.hours.tmod 12)) ++ ":"
     else
       (if fmt.fillZeros then padZerosI f.hours else toString f.hours) ++ ":")
    ++ (if fmt.fillZeros then padZerosI f.minutes else toString f.minutes) ++ ":"
    ++ (if fmt.fillZeros then padZerosI f.seconds else toString f.seconds) ++ " "
    ++ (if fmt.hours12 then (if f.hours < 12 then "AM " else "PM ") else "")
  else ""

/-- The UTC-offset section of `DateTime::toString`: a `+` sign for a
nonnegative offset, then the offset double via `padZeros`/`std::to_string`,
then `" UTC"`. -/
def renderOffsetPart (tz : Int) (fmt : DateTimeFormat) : String :=
  if fmt.showUTCoffset then
    (if 0 ≤ tz then "+" else "")
    ++ (if fmt.fillZeros then padZerosDouble tz ++ " UTC" else doubleLit tz ++ " UTC")
  else ""

/-- `DateTime::toString(const DateTimeFormat&)`: day-of-week prefix, order
loop, trailing-delimiter replacement, time section, offset section. -/
def render (f : CalendarFields) (tz : Int) (fmt : DateTimeFormat) : Option String :=
  (renderDotwPart f fmt).bind fun s0 =>
    (renderOrderPart f fmt).map fun s1 =>
      setLastToSpace (s0 ++ s1) ++ renderTimePart f fmt ++ renderOffsetPart tz fmt

/-! ## Specification-side formulas

These definitions follow the wording of the specification (not the source);
each is compared against the corresponding source-derived definition in the
theorems below. -/

/-- The day-of-week formula exactly as the specification words it: shift
January/February into the previous year's months 13/14, take
`h = (day + 13*(m+1)/5 + K + K/4 + J/4 + 5*J) mod 7` with `K = y mod 100`,
`J = y div 100` using **floor** division and modulus (`Int./` and `Int.%`),
then map to a Sunday-0 index via `(h - 1 + 7) mod 7`. -/
def zellerFloor (year m d : Int) : Int :=
  let m2 := if m < 3 then m + 12 else m
  let y2 := if m < 3 then year - 1 else year
  let K := y2 % 100
  let J := y2 / 100
  let h := (d + 13 * (m2 + 1) / 5 + K + K / 4 + J / 4 + 5 * J) % 7
  (h - 1 + 7) % 7

/-- The delimiter-capture rule as the specification words it: walking the
preprocessed characters, the character immediately following each of the
first two order-token occurrences is captured (the later capture winning),
starting from the default `/`. -/
def delimiterSpecAux : Nat → List Char → Char → Char
  | _, [], del => del
  | k, c :: rest, del =>
      if isOrderToken c then
        if k < 2 then
          match rest.head? with
          | some n => delimiterSpecAux (k + 1) rest n
          | none => delimiterSpecAux (k + 1) rest del
        else delimiterSpecAux (k + 1) rest del
      else delimiterSpecAux k rest del

/-- The delimiter the specification's capture rule assigns to a format
string. -/
def delimiterSpec (s : String) : Char :=
  delimiterSpecAux 0 (preprocess s) '/'

/-- The order tokens of a format string in scan order, duplicates included:
the `d`/`m`/`y`/`a` characters of the lowercased, space-stripped text. -/
def orderTokens (s : String) : List Char :=
  (preprocess s).filter (fun c => isOrderToken c)

/-- Day distance from 1970-01-01 forward: `daysFwd n` is the number of days
from 1970-01-01 to the start of year `1970 + n`. -/
def daysFwd : Nat → Int
  | 0 => 0
  | n + 1 => daysFwd n + daysInYear (1970 + (n : Int))

/-- Day distance from 1970-01-01 backward: `daysBwd n` is the (negative)
day count from 1970-01-01 to the start of year `1970 - n`. -/
def daysBwd : Nat → Int
  | 0 => 0
  | n + 1 => daysBwd n - daysInYear (1969 - (n : Int))

/-- The independent epoch-day formula for year starts: the signed number of
days from 1970-01-01 to `year`-01-01, as a plain sum of year lengths. -/
def yearStartDay (year : Int) : Int :=
  if 1970 ≤ year then daysFwd (year - 1970).toNat
  else daysBwd (1970 - year).toNat

/-- Days from the start of `year` to the start of its 0-based month `m`:
the sum of the month lengths before `m`. -/
def monthAcc (year : Int) : Nat → Int
  | 0 => 0
  | m + 1 => monthAcc year m + monthLen year m

/-- The independent re-encoding of a `(year, month, day, hour, minute,
second)` tuple as an epoch second count: epoch days via `yearStartDay` and
`monthAcc`, times 86400, plus the time of day. -/
def encodeFromFields (f : CalendarFields) : Int :=
  (yearStartDay f.years + monthAcc f.years f.months + f.days) * 86400
    + f.hours * 3600 + f.minutes * 60 + f.seconds

end Datepp

namespace Datepp

/-! ## Arithmetic helper lemmas -/

lemma tmod_lower (a : Int) {b : Int} (hb : 0 < b) : -b < a.tmod b := by
  rcases le_or_lt 0 a with h | h
  · have := Int.tmod_nonneg b h
    omega
  · have h1 : (-a).tmod b < b := Int.tmod_lt_of_pos (-a) hb
    have h2 : (-a).tmod b = -(a.tmod b) := by
      rw [Int.tmod_def, Int.tmod_def, Int.neg_tdiv]
      ring
    omega

lemma splitDay_spec (a : Int) : splitDay a = (a / 86400, a % 86400) := by
  have h1 := Int.tmod_add_tdiv a 86400
  have h2 := Int.tmod_lt_of_pos a (show (0 : Int) < 86400 by norm_num)
  have h3 := tmod_lower a (show (0 : Int) < 86400 by norm_num)
  unfold splitDay
  split_ifs with h <;> rw [Prod.mk.injEq] <;> constructor <;> omega

lemma daysInYear_eq (y : Int) : daysInYear y = 365 ∨ daysInYear y = 366 := by
  unfold daysInYear
  split <;> simp

lemma yearStartDay_succ (y : Int) :
    yearStartDay (y + 1) = yearStartDay y + daysInYear y := by
  unfold yearStartDay
  rcases le_or_lt 1970 y with h | h
  · rw [if_pos h, if_pos (by omega : (1970 : Int) ≤ y + 1),
        show (y + 1 - 1970).toNat = (y - 1970).toNat + 1 by omega, daysFwd]
    have h2 : (1970 + ((y - 1970).toNat : Int)) = y := by omega
    rw [h2]
  · rw [if_neg (by omega : ¬ (1970 : Int) ≤ y)]
    by_cases h9 : y = 1969
    · subst h9
      rw [if_pos (by norm_num), show ((1969 : Int) + 1 - 1970).toNat = 0 by norm_num,
          show ((1970 : Int) - 1969).toNat = 1 by norm_num]
      show (0 : Int) = daysBwd 1 + daysInYear 1969
      have hb : daysBwd 1 = -daysInYear 1969 := by
        show daysBwd 0 - daysInYear (1969 - (0 : Int)) = -daysInYear 1969
        norm_num
        rfl
      rw [hb]
      ring
    · rw [if_neg (by omega : ¬ (1970 : Int) ≤ y + 1),
          show (1970 - y).toNat = (1970 - (y + 1)).toNat + 1 by omega, daysBwd]
      have h2 : (1969 - ((1970 - (y + 1)).toNat : Int)) = y := by omega
      rw [h2]
      ring

lemma yearStartDay_1970 : yearStartDay 1970 = 0 := by
  unfold yearStartDay
  rw [if_pos le_rfl, show ((1970 : Int) - 1970).toNat = 0 by norm_num]
  rfl

lemma yearWalkF_spec (y d : Int) :
    0 ≤ d →
    yearStartDay (yearWalkF y d).1 + (yearWalkF y d).2 = yearStartDay y + d ∧
      0 ≤ (yearWalkF y d).2 ∧ (yearWalkF y d).2 < daysInYear (yearWalkF y d).1 := by
  induction y, d using yearWalkF.induct with
  | case1 y d hle ih =>
      intro _
      have h365 := daysInYear_eq y
      rw [yearWalkF, dif_pos hle]
      have ih2 := ih (by omega)
      have hsucc := yearStartDay_succ y
      exact ⟨by omega, ih2.2.1, ih2.2.2⟩
  | case2 y d hlt =>
      intro hd
      have h365 := daysInYear_eq y
      rw [yearWalkF, dif_neg hlt]
      exact ⟨rfl, hd, show d < daysInYear y by omega⟩

lemma yearWalkB_spec (y d : Int) :
    d < 0 →
    yearStartDay (yearWalkB y d).1 + (yearWalkB y d).2 = yearStartDay y + d ∧
      0 ≤ (yearWalkB y d).2 ∧ (yearWalkB y d).2 < daysInYear (yearWalkB y d).1 := by
  induction y, d using yearWalkB.induct with
  | case1 y d hlt ih =>
      intro _
      have h365 := daysInYear_eq (y - 1)
      have hsucc : yearStartDay y = yearStartDay (y - 1) + daysInYear (y - 1) := by
        have := yearStartDay_succ (y - 1)
        simpa using this
      rw [yearWalkB, dif_pos hlt]
      rcases le_or_lt 0 (d + daysInYear (y - 1)) with hge | hlt2
      · rw [yearWalkB, dif_neg (by omega)]
        refine ⟨?_, hge, ?_⟩
        · show yearStartDay (y - 1) + (d + daysInYear (y - 1)) = yearStartDay y + d
          omega
        · show d + daysInYear (y - 1) < daysInYear (y - 1)
          omega
      · have ih2 := ih hlt2
        exact ⟨by omega, ih2.2.1, ih2.2.2⟩
  | case2 y d hge =>
      intro hd
      exact absurd hd hge

end Datepp

namespace Datepp

lemma monthAcc_12 (y : Int) : monthAcc y 12 = daysInYear y := by
  have e : monthAcc y 12 = 0 + (monthLen y 0 : Int) + monthLen y 1 + monthLen y 2
      + monthLen y 3 + monthLen y 4 + monthLen y 5 + monthLen y 6 + monthLen y 7
      + monthLen y 8 + monthLen y 9 + monthLen y 10 + monthLen y 11 := rfl
  rw [e]
  cases h : isLeapYear y <;>
    simp [monthLen, monthTable, daysInYear, h]

lemma monthWalk_spec (y : Int) (m : Nat) (d : Int) :
    m ≤ 11 → 0 ≤ d → monthAcc y m + d < daysInYear y →
    ∃ p : Nat × Int, monthWalk y m d = some p ∧ p.1 ≤ 11 ∧ 0 ≤ p.2 ∧
      p.2 < (monthLen y p.1 : Int) ∧ monthAcc y p.1 + p.2 = monthAcc y m + d := by
  induction m, d using monthWalk.induct y with
  | case1 m d h =>
      intro h1 _ _
      omega
  | case2 m d h h2 ih =>
      intro h1 hd hsum
      have hacc : monthAcc y (m + 1) = monthAcc y m + monthLen y m := rfl
      have hm11 : m + 1 ≤ 11 := by
        by_contra hc
        have hm : m = 11 := by omega
        subst hm
        have h12 : monthAcc y 12 = monthAcc y 11 + monthLen y 11 := rfl
        have ha := monthAcc_12 y
        omega
      obtain ⟨p, hp, h3, h4, h5, h6⟩ := ih hm11 (by omega) (by omega)
      rw [monthWalk, dif_neg h, dif_pos h2]
      exact ⟨p, hp, h3, h4, h5, by omega⟩
  | case3 m d h h2 =>
      intro h1 hd hsum
      rw [monthWalk, dif_neg h, dif_neg h2]
      exact ⟨(m, d), rfl, h1, hd, show d < (monthLen y m : Int) by omega, rfl⟩

lemma hms_spec (r : Int) (h0 : 0 ≤ r) :
    (hmsOf r).1 * 3600 + (hmsOf r).2.1 * 60 + (hmsOf r).2.2 = r := by
  have e1 := Int.tmod_add_tdiv r 3600
  have b1 : 0 ≤ r.tmod 3600 := Int.tmod_nonneg 3600 h0
  have e2 := Int.tmod_add_tdiv (r.tmod 3600) 60
  show r.tdiv 3600 * 3600 + (r.tmod 3600).tdiv 60 * 60 + (r.tmod 3600).tmod 60 = r
  omega

lemma parseUnix_spec (u tzs : Int) :
    ∃ f : CalendarFields, parseUnix u tzs = some f ∧
      f.months ≤ 11 ∧ 0 ≤ f.days ∧ f.days < (monthLen f.years f.months : Int) ∧
      encodeFromFields f = u + tzs := by
  set a := u + tzs with ha
  have hsplit : splitDay a = (a / 86400, a % 86400) := splitDay_spec a
  have hr0 : 0 ≤ a % 86400 := Int.emod_nonneg a (by norm_num)
  have hr1 : a % 86400 < 86400 := Int.emod_lt_of_pos a (by norm_num)
  have hy : ∃ yr dr, yearSplit (a / 86400) = (yr, dr) ∧
      yearStartDay yr + dr = a / 86400 ∧ 0 ≤ dr ∧ dr < daysInYear yr := by
    unfold yearSplit
    rcases le_or_lt 0 (a / 86400) with h | h
    · rw [if_pos h]
      have hs := yearWalkF_spec 1970 (a / 86400) h
      have h1970 := yearStartDay_1970
      exact ⟨(yearWalkF 1970 (a / 86400)).1, (yearWalkF 1970 (a / 86400)).2, rfl,
        by omega, hs.2.1, hs.2.2⟩
    · rw [if_neg (by omega)]
      have hs := yearWalkB_spec 1970 (a / 86400) (by omega)
      have h1970 := yearStartDay_1970
      exact ⟨(yearWalkB 1970 (a / 86400)).1, (yearWalkB 1970 (a / 86400)).2, rfl,
        by omega, hs.2.1, hs.2.2⟩
  obtain ⟨yr, dr, hys, henc, hdr0, hdr1⟩ := hy
  have hmacc0 : monthAcc yr 0 = 0 := rfl
  obtain ⟨p, hp, hple, hp0, hplt, hpacc⟩ :=
    monthWalk_spec yr 0 dr (by norm_num) hdr0 (by omega)
  have hdotw : ∃ w, dotwByDate yr ((p.1 : Int) + 1) (p.2 + 1) = some w := by
    unfold dotwByDate
    have hc : ((p.1 : Int) + 1 - 1).toNat = p.1 := by omega
    rw [if_neg (by push_neg; omega), hc, if_neg (by push_neg; omega)]
    exact ⟨_, rfl⟩
  obtain ⟨w, hw⟩ := hdotw
  refine ⟨⟨yr, p.1, p.2, (hmsOf (a % 86400)).1, (hmsOf (a % 86400)).2.1,
    (hmsOf (a % 86400)).2.2, w⟩, ?_, hple, hp0, hplt, ?_⟩
  · have hpeq : monthWalk yr 0 dr = some (p.1, p.2) := by
      rw [hp]
    simp only [parseUnix, hsplit, hys, hpeq, hw]
  · show (yearStartDay yr + monthAcc yr p.1 + p.2) * 86400
        + (hmsOf (a % 86400)).1 * 3600 + (hmsOf (a % 86400)).2.1 * 60
        + (hmsOf (a % 86400)).2.2 = a
    have hh := hms_spec (a % 86400) hr0
    have hae : 86400 * (a / 86400) + a % 86400 = a := Int.ediv_add_emod a 86400
    omega

end Datepp

namespace Datepp

/-! ## Scan-state lemmas for the format parser -/

lemma scanStep_order (st : ScanState) (c : Char) (nx : Option Char) :
    (scanStep st c nx).order =
      if isOrderToken c then st.order ++ [c] else st.order := by
  unfold scanStep
  by_cases hw : (c == 'w') = true
  · have hc : c = 'w' := by simpa using hw
    subst hc
    simp [isOrderToken]
  · simp only [hw, if_false, Bool.false_eq_true]
    by_cases ho : isOrderToken c = true
    · simp [ho]
    · simp only [ho, if_false, Bool.false_eq_true]
      split_ifs <;> rfl

lemma scanStep_delimiter (st : ScanState) (c : Char) (nx : Option Char) :
    (scanStep st c nx).delimiter =
      if isOrderToken c then
        (match nx with
         | some n => if st.order.length + 1 < 3 then n else st.delimiter
         | none => st.delimiter)
      else st.delimiter := by
  unfold scanStep
  by_cases hw : (c == 'w') = true
  · have hc : c = 'w' := by simpa using hw
    subst hc
    simp [isOrderToken]
  · simp only [hw, if_false, Bool.false_eq_true]
    by_cases ho : isOrderToken c = true
    · simp [ho]
    · simp only [ho, if_false, Bool.false_eq_true]
      split_ifs <;> rfl

lemma scanStep_fullNames_dotw (st : ScanState) (c : Char) (nx : Option Char)
    (h : st.fullNames = true → st.showDotw = true) :
    (scanStep st c nx).fullNames = true → (scanStep st c nx).showDotw = true := by
  unfold scanStep
  by_cases hw : (c == 'w') = true
  · simp [hw]
  · simp only [hw, if_false, Bool.false_eq_true]
    by_cases ho : isOrderToken c = true
    · simpa [ho] using h
    · simp only [ho, if_false, Bool.false_eq_true]
      split_ifs <;> simpa using h

lemma scanAux_order (l : List Char) : ∀ st : ScanState,
    (scanAux st l).order = st.order ++ l.filter (fun c => isOrderToken c) := by
  induction l with
  | nil => intro st; simp [scanAux]
  | cons c rest ih =>
      intro st
      rw [show scanAux st (c :: rest) = scanAux (scanStep st c rest.head?) rest from rfl,
          ih, scanStep_order]
      by_cases ho : isOrderToken c = true <;> simp [ho]

lemma scanAux_delimiter (l : List Char) : ∀ st : ScanState,
    (scanAux st l).delimiter = delimiterSpecAux st.order.length l st.delimiter := by
  induction l with
  | nil => intro st; rfl
  | cons c rest ih =>
      intro st
      rw [show scanAux st (c :: rest) = scanAux (scanStep st c rest.head?) rest from rfl,
          ih, scanStep_order, scanStep_delimiter, delimiterSpecAux]
      by_cases ho : isOrderToken c = true
      · simp only [ho, if_true]
        cases hnx : rest.head? with
        | none =>
            simp only []
            by_cases hk : st.order.length < 2 <;> simp [ho, hk, List.length_append]
        | some n =>
            simp only []
            by_cases hk : st.order.length < 2
            · simp [ho, hk, show st.order.length + 1 < 3 by omega, List.length_append]
            · simp [ho, hk, show ¬ st.order.length + 1 < 3 by omega, List.length_append]
      · simp [ho]

lemma scanAux_fullNames_dotw (l : List Char) : ∀ st : ScanState,
    (st.fullNames = true → st.showDotw = true) →
    ((scanAux st l).fullNames = true → (scanAux st l).showDotw = true) := by
  induction l with
  | nil => intro st h; exact h
  | cons c rest ih =>
      intro st h
      exact ih _ (scanStep_fullNames_dotw st c rest.head? h)

end Datepp

namespace Datepp

/-! ## Truncated-versus-floor Zeller arithmetic -/

lemma zeller_trunc_eq_floor (y2 m2 d : Int) (hy : 0 ≤ y2) (hm : 1 ≤ m2) (hd : 1 ≤ d) :
    ((d + (13 * (m2 + 1)).tdiv 5 + y2.tmod 100 + (y2.tmod 100).tdiv 4
        + (y2.tdiv 100).tdiv 4 + 5 * y2.tdiv 100).tmod 7 - 1 + 7).tmod 7
    = ((d + 13 * (m2 + 1) / 5 + y2 % 100 + y2 % 100 / 4
        + y2 / 100 / 4 + 5 * (y2 / 100)) % 7 - 1 + 7) % 7 := by
  have e1 : y2.tmod 100 = y2 % 100 := Int.tmod_eq_emod hy (by norm_num)
  have e2 : y2.tdiv 100 = y2 / 100 := Int.tdiv_eq_ediv hy (by norm_num)
  have h100 : 0 ≤ y2 % 100 := Int.emod_nonneg y2 (by norm_num)
  have e3 : (y2 % 100).tdiv 4 = y2 % 100 / 4 := Int.tdiv_eq_ediv h100 (by norm_num)
  have hdiv : 0 ≤ y2 / 100 := Int.ediv_nonneg hy (by norm_num)
  have e4 : (y2 / 100).tdiv 4 = y2 / 100 / 4 := Int.tdiv_eq_ediv hdiv (by norm_num)
  have h13 : 0 ≤ 13 * (m2 + 1) := by omega
  have e5 : (13 * (m2 + 1)).tdiv 5 = 13 * (m2 + 1) / 5 := Int.tdiv_eq_ediv h13 (by norm_num)
  rw [e1, e2, e3, e4, e5]
  have hS : 0 ≤ d + 13 * (m2 + 1) / 5 + y2 % 100 + y2 % 100 / 4
      + y2 / 100 / 4 + 5 * (y2 / 100) := by
    have q1 : 0 ≤ 13 * (m2 + 1) / 5 := Int.ediv_nonneg h13 (by norm_num)
    have q2 : 0 ≤ y2 % 100 / 4 := Int.ediv_nonneg h100 (by norm_num)
    have q3 : 0 ≤ y2 / 100 / 4 := Int.ediv_nonneg hdiv (by norm_num)
    omega
  rw [Int.tmod_eq_emod hS (by norm_num)]
  have h7 : 0 ≤ (d + 13 * (m2 + 1) / 5 + y2 % 100 + y2 % 100 / 4
      + y2 / 100 / 4 + 5 * (y2 / 100)) % 7 :=
    Int.emod_nonneg _ (by norm_num)
  rw [Int.tmod_eq_emod (by omega) (by norm_num)]

/-! ## Concrete evaluations of `parseUnix` -/

lemma yearWalkF_1970_0 : yearWalkF 1970 0 = (1970, 0) := by
  rw [yearWalkF, dif_neg (by decide : ¬ daysInYear 1970 ≤ (0 : Int))]

lemma monthWalk_1970_0_0 : monthWalk 1970 0 0 = some (0, 0) := by
  rw [monthWalk, dif_neg (by decide : ¬ 11 < 0),
      dif_neg (by decide : ¬ (monthLen 1970 0 : Int) ≤ 0)]

lemma parseUnix_at_zero : parseUnix 0 0 = some ⟨1970, 0, 0, 0, 0, 0, 4⟩ := by
  unfold parseUnix yearSplit
  norm_num [splitDay, yearWalkF_1970_0, monthWalk_1970_0_0, hmsOf]
  rfl

lemma parseUnix_at_ten : parseUnix 10 0 = some ⟨1970, 0, 0, 0, 0, 10, 4⟩ := by
  unfold parseUnix yearSplit
  norm_num [splitDay, show Int.tmod 10 86400 = 10 from rfl,
            show Int.tdiv 10 86400 = 0 from rfl, yearWalkF_1970_0, monthWalk_1970_0_0]
  rfl

end Datepp

namespace Datepp

/-! ## Claim theorems -/

/-- C1. For every epoch integer `e` (in particular the whole range
-10,000,000,000 .. 10,000,000,000) with UTC offset 0, `parseUnix` produces
calendar fields, and re-encoding the `(year, month, day, hour, minute,
second)` tuple with the independent epoch-day formula
(`yearStartDay`/`monthAcc` sums) yields exactly `e`. -/
theorem claim1_roundtrip (e : Int) :
    ∃ f : CalendarFields, parseUnix e 0 = some f ∧ encodeFromFields f = e := by
  obtain ⟨f, hf, _, _, _, henc⟩ := parseUnix_spec e 0
  exact ⟨f, hf, by omega⟩

/-- C3. For every epoch integer and every whole-second offset shift, the
year/month walking of `parseUnix` terminates with a result (the walks are
total functions and no bounds check fires), and the fields satisfy
`0 ≤ month ≤ 11` and `0 ≤ day < daysInMonth(year, month)`. -/
theorem claim3_walk_terminates (u tzs : Int) :
    ∃ f : CalendarFields, parseUnix u tzs = some f ∧
      f.months ≤ 11 ∧ 0 ≤ f.days ∧
      ∃ dim, daysInMonth f.years f.months = some dim ∧ f.days < (dim : Int) := by
  obtain ⟨f, hf, hm, hd0, hdlt, _⟩ := parseUnix_spec u tzs
  refine ⟨f, hf, hm, hd0, monthLen f.years f.months, ?_, hdlt⟩
  unfold daysInMonth
  rw [if_neg (by omega)]

/-- C4. After the offset shift, `parseUnix` splits the adjusted epoch by
floor division: the corrected day-count/remainder pair of `splitDay` equals
`(adjusted / 86400, adjusted % 86400)` with floor conventions, and the
remainder used for the hour/minute/second derivation lies in `[0, 86400)`. -/
theorem claim4_floor_split (u tzs : Int) :
    splitDay (u + tzs) = ((u + tzs) / 86400, (u + tzs) % 86400) ∧
    0 ≤ (u + tzs) % 86400 ∧ (u + tzs) % 86400 < 86400 :=
  ⟨splitDay_spec (u + tzs), Int.emod_nonneg _ (by norm_num),
   Int.emod_lt_of_pos _ (by norm_num)⟩

/-- C6. For every year, including zero and negative years,
`isLeapYear year` is true exactly when the year is divisible by 4 and
(not divisible by 100, or divisible by 400); the truncated C++ `%` makes no
difference for divisibility, so nothing is special-cased. -/
theorem claim6_leap_year_rule (y : Int) :
    isLeapYear y = true ↔ (4 ∣ y ∧ (¬ (100 ∣ y) ∨ 400 ∣ y)) := by
  unfold isLeapYear
  simp only [Bool.and_eq_true, Bool.or_eq_true, beq_iff_eq, bne_iff_ne,
    Int.dvd_iff_tmod_eq_zero]

end Datepp

namespace Datepp

/-- C5 (amended). Whenever the year is shifted-nonnegative (the year
itself for March..December, the previous year for January/February),
`dotwByDate` agrees with the specification's floor-division Zeller formula
`zellerFloor`, which is then a nonnegative Sunday-0 index; this covers in
particular every year ≥ 1, hence 1970-01-01 (Thursday) and 2000-01-01
(Saturday).  For shifted-negative years the C++ truncated divisions diverge
from the floor formula (see the counterexample). -/
theorem claim5_zeller (y m d : Int)
    (hshift : 0 ≤ (if m < 3 then y - 1 else y))
    (hm1 : 1 ≤ m) (hm2 : m ≤ 12) (hd1 : 1 ≤ d)
    (hd2 : d ≤ (monthLen y (m - 1).toNat : Int)) :
    dotwByDate y m d = some (zellerFloor y m d).toNat ∧ 0 ≤ zellerFloor y m d := by
  have hguard1 : ¬ (m < 1 ∨ 12 < m) := by omega
  have hguard2 : ¬ (d < 1 ∨ (monthLen y (m - 1).toNat : Int) < d) := by omega
  constructor
  · unfold dotwByDate zellerFloor
    rw [if_neg hguard1, if_neg hguard2]
    by_cases h3 : m < 3
    · simp only [if_pos h3]
      have hy : 0 ≤ y - 1 := by simpa [h3] using hshift
      rw [zeller_trunc_eq_floor (y - 1) (m + 12) d hy (by omega) hd1]
    · simp only [if_neg h3]
      have hy : 0 ≤ y := by simpa [h3] using hshift
      rw [zeller_trunc_eq_floor y m d hy (by omega) hd1]
  · unfold zellerFloor
    exact Int.emod_nonneg _ (by norm_num)

/-- C5 (counterexample). At the valid date year -1, March 1 the code and
the claimed floor-division Zeller formula disagree: `dotwByDate` (truncated
C++ divisions) yields 2 while the floor formula yields 1, so the claim as
stated — equality for *every* year — is false. -/
theorem claim5_zeller_counterexample :
    (1 : Int) ≤ 3 ∧ (3 : Int) ≤ 12 ∧ (1 : Int) ≤ 1 ∧
    (1 : Int) ≤ (monthLen (-1) ((3 : Int) - 1).toNat : Int) ∧
    dotwByDate (-1) 3 1 = some 2 ∧ (zellerFloor (-1) 3 1).toNat = 1 ∧
    dotwByDate (-1) 3 1 ≠ some (zellerFloor (-1) 3 1).toNat := by
  refine ⟨by norm_num, by norm_num, le_rfl, by decide, rfl, rfl, by decide⟩

/-- C5 (witness). The amended theorem applied at 1970-01-01 and
2000-01-01: Thursday (4) and Saturday (6). -/
theorem claim5_zeller_witness :
    dotwByDate 1970 1 1 = some 4 ∧ dotwByDate 2000 1 1 = some 6 := by
  constructor
  · have h := (claim5_zeller 1970 1 1 (by norm_num) (by norm_num) (by norm_num)
      (by norm_num) (by decide)).1
    rw [h]
    decide
  · have h := (claim5_zeller 2000 1 1 (by norm_num) (by norm_num) (by norm_num)
      (by norm_num) (by decide)).1
    rw [h]
    decide

/-- C7. Format parsing fails — and fails with `InvalidFormat` — exactly
when the order string accumulated from the `d`/`m`/`y`/`a` tokens of the
lowercased, space-stripped text, deduplicated preserving first occurrence,
does not have exactly 3 characters; on success the parsed order is exactly
that deduplicated 3-character string. -/
theorem claim7_order_validation (s : String) :
    (parseFormat s = .error .invalidFormat ↔
      (removeDuplicates (orderTokens s)).length ≠ 3) ∧
    (∀ fmt, parseFormat s = .ok fmt →
      fmt.order = removeDuplicates (orderTokens s)) := by
  have horder : (scanAux initState (preprocess s)).order = orderTokens s := by
    rw [scanAux_order (preprocess s) initState]
    simp [initState, orderTokens]
  unfold parseFormat
  rw [horder]
  by_cases h : (removeDuplicates (orderTokens s)).length ≠ 3
  · rw [if_pos h]
    exact ⟨⟨fun _ => h, fun _ => rfl⟩, fun fmt hf => Except.noConfusion hf⟩
  · rw [if_neg h]
    refine ⟨⟨fun hc => Except.noConfusion hc, fun h3 => absurd h3 h⟩, ?_⟩
    intro fmt hf
    cases hf
    rfl

/-- C7 (witness). The theorem applied at the format string `"mdy"`,
which parses successfully with order `['m', 'd', 'y']`. -/
theorem claim7_order_validation_witness :
    parseFormat "mdy" =
      .ok ⟨'y', false, false, false, false, false, false, false, ['m', 'd', 'y']⟩ ∧
    (⟨'y', false, false, false, false, false, false, false,
        ['m', 'd', 'y']⟩ : DateTimeFormat).order
      = removeDuplicates (orderTokens "mdy") :=
  ⟨rfl, (claim7_order_validation "mdy").2
    ⟨'y', false, false, false, false, false, false, false, ['m', 'd', 'y']⟩ rfl⟩

/-- C8. The scan captures as delimiter the character immediately
following each of the first two order-token occurrences, the later capture
winning, with `/` when nothing is captured (`delimiterSpec`, worded from
the specification); and parsing `"mm-dd-yyyy"` yields order month, day,
year with delimiter `-` and zero-padding enabled, all other flags off. -/
theorem claim8_delimiter_capture :
    (∀ s : String, (scanAux initState (preprocess s)).delimiter = delimiterSpec s) ∧
    parseFormat "mm-dd-yyyy" =
      .ok ⟨'-', false, false, false, true, false, false, false, ['m', 'd', 'y']⟩ := by
  refine ⟨fun s => ?_, rfl⟩
  rw [scanAux_delimiter (preprocess s) initState]
  rfl

end Datepp

namespace Datepp

/-- C2 (code evaluation). The default format string parses to the
expected spec, epoch 0 at offset 0 parses to 1970-01-01 00:00:00 Thursday
— but rendering emits the `double` UTC offset through `std::to_string`, so
the output is `"Thu, 01/01/1970 00:00:00 +00.000000 UTC"`, not the
`"Thu, 01/01/1970 00:00:00 +00 UTC"` that the claim (and the source's own
comments) state. -/
theorem claim2_default_format_output :
    parseFormat "W, DD/MM/YY, HH:II:SS O UTC" =
      .ok ⟨'/', true, true, true, true, false, false, false, ['d', 'm', 'y']⟩ ∧
    parseUnix 0 0 = some ⟨1970, 0, 0, 0, 0, 0, 4⟩ ∧
    render ⟨1970, 0, 0, 0, 0, 0, 4⟩ 0
        ⟨'/', true, true, true, true, false, false, false, ['d', 'm', 'y']⟩
      = some "Thu, 01/01/1970 00:00:00 +00.000000 UTC" ∧
    "Thu, 01/01/1970 00:00:00 +00.000000 UTC" ≠ "Thu, 01/01/1970 00:00:00 +00 UTC" :=
  ⟨rfl, parseUnix_at_zero, rfl, by decide⟩

/-- C9 (code evaluation). `DateTime(epoch 10) / DateTime(epoch 0)`:
both operands construct, the divisor's epoch is zero, and the division has
no defined result (`none`): the C++ code performs unchecked integer
division, which on a zero divisor is undefined behavior, not a thrown
`DomainError`. -/
theorem claim9_division_by_zero :
    ∃ d10 d0 : DateTime,
      mkDateTime 10 0 = some d10 ∧ mkDateTime 0 0 = some d0 ∧
      d0.epoch = 0 ∧ dtDiv d10 d0 = none := by
  refine ⟨⟨10, 0, ⟨1970, 0, 0, 0, 0, 10, 4⟩⟩, ⟨0, 0, ⟨1970, 0, 0, 0, 0, 0, 4⟩⟩,
    ?_, ?_, rfl, rfl⟩
  · unfold mkDateTime
    rw [show (0 : Int) * 3600 = 0 by norm_num, parseUnix_at_ten]
    rfl
  · unfold mkDateTime
    rw [show (0 : Int) * 3600 = 0 by norm_num, parseUnix_at_zero]
    rfl

/-- C10. The renderer's alphabetical-month token emits the full month
name exactly when `fullNames` is set; parsed formats can set `fullNames`
only through a doubled `w` (which also turns on the day-of-week display),
so a parsed format shows full month names only together with the
day-of-week; and a doubled `a` sets zero-padding, never full names (shown
on `"aa-dd-yy"`). -/
theorem claim10_full_month_names :
    (∀ (f : CalendarFields) (fmt : DateTimeFormat), f.months ≤ 11 →
      ∃ nm, monthNames.get? f.months = some nm ∧
        orderText f fmt 'a' = some (if fmt.fullNames then nm else nm.take 3)) ∧
    (∀ (s : String) (fmt : DateTimeFormat), parseFormat s = .ok fmt →
      fmt.fullNames = true → fmt.showDotw = true) ∧
    parseFormat "aa-dd-yy" =
      .ok ⟨'-', false, false, false, true, true, false, false, ['a', 'd', 'y']⟩ := by
  refine ⟨?_, ?_, rfl⟩
  · rintro ⟨yy, mo, dd, hh, mi, ss, ww⟩ fmt hm
    interval_cases mo <;> exact ⟨_, rfl, rfl⟩
  · intro s fmt hf
    have hinv := scanAux_fullNames_dotw (preprocess s) initState (fun h => by cases h)
    unfold parseFormat at hf
    by_cases h : (removeDuplicates (scanAux initState (preprocess s)).order).length ≠ 3
    · rw [if_pos h] at hf
      exact Except.noConfusion hf
    · rw [if_neg h] at hf
      cases hf
      exact hinv

/-- C10 (witness). The theorem applied at January with a
`fullNames`-set format (emitting `"January"`), and at the parsed format
`"wwddmmyy"` (whose `fullNames` forces `showDotw`). -/
theorem claim10_full_month_names_witness :
    orderText ⟨1970, 0, 0, 0, 0, 0, 4⟩
        ⟨'/', true, true, true, true, false, false, true, ['d', 'm', 'y']⟩ 'a'
      = some "January" ∧
    (⟨'m', true, false, false, true, false, false, true,
        ['d', 'm', 'y']⟩ : DateTimeFormat).showDotw = true := by
  constructor
  · obtain ⟨nm, h1, h2⟩ := claim10_full_month_names.1 ⟨1970, 0, 0, 0, 0, 0, 4⟩
      ⟨'/', true, true, true, true, false, false, true, ['d', 'm', 'y']⟩ (by norm_num)
    have hnm : nm = "January" := by
      have : monthNames.get? 0 = some "January" := rfl
      rw [this] at h1
      exact (Option.some.injEq _ _ ▸ h1).symm
    rw [h2, hnm]
    rfl
  · exact claim10_full_month_names.2.1 "wwddmmyy"
      ⟨'m', true, false, false, true, false, false, true, ['d', 'm', 'y']⟩ rfl rfl

end Datepp
